import Mathlib

/-!
Shallow embedding of the BTCP vanilla client core:
`src/security/capabilities.ts` (CapabilityManager),
`src/tools/registry.ts` (ToolRegistry) and
`src/client.ts` (VanillaClient orchestrator).

Modelling conventions:
* JavaScript `Map` objects are modelled as insertion-ordered association
  lists (`List (String × α)`): `Map.set` on an existing key updates the
  value in place (the entry keeps its original position), `Map.delete`
  removes the entry, `Map.values()` lists values in insertion order.
* JavaScript `Set<string>` objects are modelled as `List String` with
  first-occurrence deduplication on construction; only membership matters
  to the translated operations.
* Tool handlers are functions in the source; the registry and the
  capability logic never apply them, so they are modelled by an uninterpreted
  numeric identity (`handler : Nat`).  The source's dynamic
  `typeof definition.handler !== 'function'` guard cannot fire in the
  typed model and is therefore omitted.
* Asynchronous interaction with the external core client is modelled by
  explicit outcome parameters (`coreOk`, `remoteOk` : does the awaited
  core promise resolve?) and every method returns, next to its state, a
  trace of externally visible steps (emitted events, core-client calls,
  console logging) in execution order.  A thrown exception is modelled by
  an `Option ClientError` (registration) or a `Bool` "threw" flag
  (connect/disconnect), returned next to the state the object holds at
  the moment of the throw.
-/

namespace BTCP

/-- Connection status values from `src/types.ts`. -/
inductive ConnectionStatus
  | disconnected
  | connecting
  | connected
  | reconnecting
deriving DecidableEq, BEq

/-- The `ToolDefinition` from `src/types.ts`.  Its `inputSchema` is
structurally uninterpreted for the translated core and is kept as an
uninterpreted string. -/
structure ToolDefinition where
  name : String
  description : String
  inputSchema : Option String := none
  capabilities : Option (List String) := none
  handler : Nat := 0
  version : Option String := none
deriving DecidableEq

/-- The `ProtocolToolDefinition` from `src/types.ts`: the same attributes
minus `handler`. -/
structure ProtocolToolDefinition where
  name : String
  description : String
  inputSchema : Option String := none
  capabilities : Option (List String) := none
  version : Option String := none
deriving DecidableEq

/-! ### JavaScript `Map` model -/

/-- The `Map.has k`. -/
def mapHas (m : List (String × α)) (k : String) : Bool :=
  m.any (fun p => p.1 == k)

/-- The `Map.set k v`: updates the value in place when the key exists (the
key keeps its insertion position), otherwise appends a new entry. -/
def mapSet (m : List (String × α)) (k : String) (v : α) : List (String × α) :=
  if mapHas m k then m.map (fun p => if p.1 == k then (k, v) else p)
  else m ++ [(k, v)]

/-- The `Map.get k`. -/
def mapGet (m : List (String × α)) (k : String) : Option α :=
  (m.find? (fun p => p.1 == k)).map Prod.snd

/-- The `Map.delete k` (the resulting map; the source's boolean result is
`mapHas m k`). -/
def mapDelete (m : List (String × α)) (k : String) : List (String × α) :=
  m.filter (fun p => !(p.1 == k))

/-! ### CapabilityManager (`src/security/capabilities.ts`) -/

/-- The `ALL_CAPABILITIES = Object.values(CAPABILITIES)`. -/
def ALL_CAPABILITIES : List String :=
  ["dom:read", "dom:write", "storage:read", "storage:write",
   "network:fetch", "clipboard:read", "clipboard:write"]

/-- Result of `CapabilityManager.check`. -/
structure CapabilityCheckResult where
  allowed : Bool
  missing : List String
deriving DecidableEq

/-- The `new CapabilityManager(capabilities)`:
`this.granted = new Set(capabilities ?? ALL_CAPABILITIES)`. -/
def CapabilityManager.init (capabilities : Option (List String)) : List String :=
  (capabilities.getD ALL_CAPABILITIES).eraseDups

/-- The `CapabilityManager.grant`. -/
def CapabilityManager.grant (granted : List String) (capability : String) : List String :=
  if granted.contains capability then granted else granted ++ [capability]

/-- The `CapabilityManager.revoke` (`Set.delete`). -/
def CapabilityManager.revoke (granted : List String) (capability : String) : List String :=
  granted.filter (fun c => !(c == capability))

/-- The `CapabilityManager.has`. -/
def CapabilityManager.hasCap (granted : List String) (capability : String) : Bool :=
  granted.contains capability

/-- The `CapabilityManager.check(required)`:
`missing = required.filter(cap => !granted.has(cap))`,
`allowed = missing.length === 0`. -/
def CapabilityManager.check (granted : List String) (required : List String) :
    CapabilityCheckResult :=
  let missing := required.filter (fun cap => !(granted.contains cap))
  { allowed := missing.isEmpty, missing := missing }

/-! ### ToolRegistry (`src/tools/registry.ts`) -/

/-- The registry's `tools : Map<string, ToolDefinition>`. -/
abbrev Registry := List (String × ToolDefinition)

/-- Validation failures thrown by `ToolRegistry.register`. -/
inductive RegistryError
  | nameRequired
  | descriptionRequired
deriving DecidableEq

/-- The `ToolRegistry.register(definition)`: validates `name` and
`description`, then `tools.set(definition.name, definition)`.  The
returned `Bool` records whether the overwrite warning
(`console.warn` when the name already exists) was emitted. -/
def ToolRegistry.register (tools : Registry) (d : ToolDefinition) :
    Except RegistryError (Registry × Bool) :=
  if d.name = "" then Except.error RegistryError.nameRequired
  else if d.description = "" then Except.error RegistryError.descriptionRequired
  else Except.ok (mapSet tools d.name d, mapHas tools d.name)

/-- The `ToolRegistry.unregister(name)`: `tools.delete(name)`; the `Bool` is
the deletion result (true iff an entry existed). -/
def ToolRegistry.unregister (tools : Registry) (name : String) : Registry × Bool :=
  (mapDelete tools name, mapHas tools name)

/-- The `ToolRegistry.list()`: `Array.from(tools.values())`. -/
def ToolRegistry.list (tools : Registry) : List ToolDefinition :=
  tools.map Prod.snd

/-- The `ToolRegistry.has(name)`. -/
def ToolRegistry.hasTool (tools : Registry) (name : String) : Bool :=
  mapHas tools name

/-- The pure projection dropping `handler` used by `toProtocolFormat`. -/
def toProtocol (d : ToolDefinition) : ProtocolToolDefinition :=
  { name := d.name, description := d.description, inputSchema := d.inputSchema,
    capabilities := d.capabilities, version := d.version }

/-- The `ToolRegistry.toProtocolFormat()`. -/
def ToolRegistry.toProtocolFormat (tools : Registry) : List ProtocolToolDefinition :=
  (ToolRegistry.list tools).map toProtocol

/-! ### Registry well-formedness

Every registry reachable from the empty map through `ToolRegistry.register`
and `ToolRegistry.unregister` has pairwise-distinct keys and stores each
definition under its own `name`. -/

def RegistryWF (reg : Registry) : Prop :=
  (reg.map Prod.fst).Nodup ∧ ∀ p ∈ reg, p.1 = p.2.name

/-! ### VanillaClient (`src/client.ts`) -/

/-- Public event payloads re-emitted by the wrapper (`src/types.ts`).
The `error` payload's `Error` object is reduced to its `context` string,
which is all the translated logic distinguishes. -/
inductive Ev
  | connect (sessionId : String)
  | disconnect (reason : String) (code : Nat)
  | reconnect (attempt : Nat)
  | error (context : String)
  | toolCall (name : String)
  | toolResult (name : String)
deriving DecidableEq

/-- Externally visible actions of a `VanillaClient` method, in execution
order: local event emissions, calls on the external core client and
executor, assignments to `_status`, and `console.error` logging. -/
inductive Step
  | emit (e : Ev)
  | coreConnect
  | coreDisconnect
  | registerTools (payload : List ProtocolToolDefinition)
  | registerHandler (name : String)
  | setStatus (s : ConnectionStatus)
  | consoleError (message : String)
deriving DecidableEq

/-- Exceptions thrown synchronously by `VanillaClient.registerTool`. -/
inductive ClientError
  | nameRequired
  | descriptionRequired
  | missingCapabilities (name : String) (missing : List String)
deriving DecidableEq

/-- The wrapper's own mutable state.  `coreConnected` models the value
the external core client currently returns from `isConnected()`;
`handlers` models the local `eventHandlers` map (event name to the
insertion-ordered set of handler identities). -/
structure ClientState where
  status : ConnectionStatus
  registry : Registry
  granted : List String
  handlers : List (String × List Nat)
  coreConnected : Bool
deriving DecidableEq

/-- The `new VanillaClient(options)`: status starts `disconnected`, empty
registry and local handler map, grant set from the options. -/
def VanillaClient.init (capabilities : Option (List String)) : ClientState :=
  { status := ConnectionStatus.disconnected, registry := [],
    granted := CapabilityManager.init capabilities, handlers := [],
    coreConnected := false }

/-- The `VanillaClient.syncTools()`: reads the full protocol view and calls
`core.registerTools` only when it is non-empty.  The `Bool` result is
whether the awaited call resolved (`remoteOk` models the remote
outcome); an empty view performs no call and trivially succeeds. -/
def VanillaClient.syncTools (registry : Registry) (remoteOk : Bool) :
    List Step × Bool :=
  let definitions := ToolRegistry.toProtocolFormat registry
  if definitions.length > 0 then ([Step.registerTools definitions], remoteOk)
  else ([], true)

/-- The admission path of `VanillaClient.registerTool` after the
capability gate: store in the registry, register the wrapped handler
with the executor, and, only when `isConnected`
(`_status === 'connected' && core.isConnected()`), fire off a background
sync whose rejection is routed to `console.error`. -/
def VanillaClient.registerToolStore (st : ClientState) (d : ToolDefinition)
    (remoteOk : Bool) : ClientState × List Step × Option ClientError :=
  match ToolRegistry.register st.registry d with
  | Except.error RegistryError.nameRequired =>
      (st, [], some ClientError.nameRequired)
  | Except.error RegistryError.descriptionRequired =>
      (st, [], some ClientError.descriptionRequired)
  | Except.ok (registry2, _warned) =>
      let st2 := { st with registry := registry2 }
      if st2.status == ConnectionStatus.connected && st2.coreConnected then
        let sync := VanillaClient.syncTools st2.registry remoteOk
        (st2,
         Step.registerHandler d.name ::
           (sync.1 ++
            (if sync.2 = false then
              [Step.consoleError "[BTCP] Failed to sync tools after registration:"]
             else [])),
         none)
      else (st2, [Step.registerHandler d.name], none)

/-- The `VanillaClient.registerTool(definition)`: field validation, then the
capability gate (only when `capabilities` is present and non-empty),
then admission. -/
def VanillaClient.registerTool (st : ClientState) (d : ToolDefinition)
    (remoteOk : Bool) : ClientState × List Step × Option ClientError :=
  if d.name = "" then (st, [], some ClientError.nameRequired)
  else if d.description = "" then (st, [], some ClientError.descriptionRequired)
  else
    match d.capabilities with
    | some caps =>
        if caps.length > 0 then
          if (CapabilityManager.check st.granted caps).allowed = false then
            (st, [],
             some (ClientError.missingCapabilities d.name
               (CapabilityManager.check st.granted caps).missing))
          else VanillaClient.registerToolStore st d remoteOk
        else VanillaClient.registerToolStore st d remoteOk
    | none => VanillaClient.registerToolStore st d remoteOk

/-- The `VanillaClient.unregisterTool(name)`: removes from the registry;
when removal occurred and `isConnected`, fires off a background sync
whose rejection is routed to `console.error`.  Returns the removal
result. -/
def VanillaClient.unregisterTool (st : ClientState) (name : String)
    (remoteOk : Bool) : ClientState × List Step × Bool :=
  let res := ToolRegistry.unregister st.registry name
  let st2 := { st with registry := res.1 }
  if res.2 && (st2.status == ConnectionStatus.connected && st2.coreConnected) then
    let sync := VanillaClient.syncTools st2.registry remoteOk
    (st2,
     sync.1 ++
       (if sync.2 = false then
         [Step.consoleError "[BTCP] Failed to sync tools after unregistration:"]
        else []),
     res.2)
  else (st2, [], res.2)

/-- The `VanillaClient.listTools()`. -/
def VanillaClient.listTools (st : ClientState) : List ToolDefinition :=
  ToolRegistry.list st.registry

/-- The `VanillaClient.hasTool(name)`. -/
def VanillaClient.hasToolNamed (st : ClientState) (name : String) : Bool :=
  ToolRegistry.hasTool st.registry name

/-- The `VanillaClient.connect()`: sets `connecting` and emits an early
`connect` event with an empty session id, awaits `core.connect()` and
the initial sync, then sets `connected` and emits `connect` with the
real session id; any failure rolls status back to `disconnected`, emits
`error{context:'connect'}` and rethrows (the `Bool` result is the
"threw" flag).  `coreOk` is the outcome of `core.connect()`, `remoteOk`
the outcome of `core.registerTools`, `sid` the value of
`core.getSessionId()` after connecting. -/
def VanillaClient.connect (st : ClientState) (coreOk : Bool) (remoteOk : Bool)
    (sid : Option String) : ClientState × List Step × Bool :=
  let st1 : ClientState := { st with status := ConnectionStatus.connecting }
  let pre : List Step :=
    [Step.setStatus ConnectionStatus.connecting, Step.emit (Ev.connect ""),
     Step.coreConnect]
  if coreOk = false then
    ({ st1 with status := ConnectionStatus.disconnected },
     pre ++ [Step.setStatus ConnectionStatus.disconnected,
             Step.emit (Ev.error "connect")],
     true)
  else
    let st2 : ClientState := { st1 with coreConnected := true }
    let sync := VanillaClient.syncTools st.registry remoteOk
    if sync.2 = false then
      ({ st2 with status := ConnectionStatus.disconnected },
       pre ++ sync.1 ++ [Step.setStatus ConnectionStatus.disconnected,
                         Step.emit (Ev.error "connect")],
       true)
    else
      ({ st2 with status := ConnectionStatus.connected },
       pre ++ sync.1 ++ [Step.setStatus ConnectionStatus.connected,
                         Step.emit (Ev.connect (sid.getD ""))],
       false)

/-- The `VanillaClient.disconnect()`: `try { await core.disconnect() }
finally { _status = 'disconnected'; emit disconnect }`.  The `finally`
block always runs, after which a rejected `core.disconnect()` propagates
to the caller (the `Bool` "threw" flag). -/
def VanillaClient.disconnect (st : ClientState) (coreOk : Bool) :
    ClientState × List Step × Bool :=
  ({ st with status := ConnectionStatus.disconnected },
   [Step.coreDisconnect, Step.setStatus ConnectionStatus.disconnected,
    Step.emit (Ev.disconnect "manual" 1000)],
   !coreOk)

/-- The `VanillaClient.destroy()`: best-effort disconnect whose rejection is
swallowed by `.catch(() => {})`, then clears the registry, the grant set
and the local event-handler map.  Total by construction: no exception
escapes for any state or core outcome. -/
def VanillaClient.destroy (st : ClientState) (coreOk : Bool) :
    ClientState × List Step :=
  let r := VanillaClient.disconnect st coreOk
  ({ r.1 with registry := [], granted := [], handlers := [] }, r.2.1)

/-- The core-client `connect` listener installed by
`setupEventForwarding`: only `this._status = 'connected'`. -/
def VanillaClient.onCoreConnect (st : ClientState) : ClientState × List Step :=
  ({ st with status := ConnectionStatus.connected },
   [Step.setStatus ConnectionStatus.connected])

/-- The core-client `disconnect` listener: only
`this._status = 'disconnected'`. -/
def VanillaClient.onCoreDisconnect (st : ClientState) : ClientState × List Step :=
  ({ st with status := ConnectionStatus.disconnected },
   [Step.setStatus ConnectionStatus.disconnected])

/-- The core-client `reconnect` listener: sets `reconnecting` and
re-emits the event. -/
def VanillaClient.onCoreReconnect (st : ClientState) (attempt : Nat) :
    ClientState × List Step :=
  ({ st with status := ConnectionStatus.reconnecting },
   [Step.setStatus ConnectionStatus.reconnecting, Step.emit (Ev.reconnect attempt)])

/-- Step classifiers used by the theorems. -/
def Step.isRegisterTools : Step → Bool
  | Step.registerTools _ => true
  | _ => false

def Step.isErrorEmit : Step → Bool
  | Step.emit (Ev.error _) => true
  | _ => false

def Step.isConnectEmit : Step → Bool
  | Step.emit (Ev.connect _) => true
  | _ => false

/-! ### Event emission under concurrent handler removal

`VanillaClient.emit` iterates `eventHandlers.get(event)` — a live
JavaScript `Set` — with `forEach` while an invoked handler may call
`off`, deleting other handlers from the same set.  Per the ECMAScript
`Set.prototype.forEach` contract, each element is visited once in
insertion order and an element deleted before being visited is not
visited.  `hs` is the insertion-ordered handler set at the start of the
emission and `removes g` is the set of handlers that handler `g` deletes
via `off` during its own invocation; the result is the sequence of
handlers actually invoked. -/

def VanillaClient.emitLoop (removes : Nat → List Nat) :
    List Nat → List Nat → List Nat
  | [], _ => []
  | h :: rest, removed =>
      if removed.contains h then VanillaClient.emitLoop removes rest removed
      else h :: VanillaClient.emitLoop removes rest (removed ++ removes h)

def VanillaClient.emitRun (hs : List Nat) (removes : Nat → List Nat) : List Nat :=
  VanillaClient.emitLoop removes hs []

def stC1 : ClientState :=
  { status := ConnectionStatus.disconnected, registry := [],
    granted := ["dom:read"], handlers := [], coreConnected := false }

def dC1 : ToolDefinition :=
  { name := "a", description := "d", capabilities := some ["dom:write"] }

def dC2 : ToolDefinition := { name := "a", description := "d" }

def stC2 : ClientState :=
  { status := ConnectionStatus.reconnecting, registry := [("a", dC2)],
    granted := [], handlers := [], coreConnected := true }

def stC6 : ClientState :=
  { status := ConnectionStatus.connected, registry := [], granted := [],
    handlers := [], coreConnected := true }

def stC10 : ClientState :=
  { status := ConnectionStatus.disconnected, registry := [], granted := [],
    handlers := [], coreConnected := false }

def dC3a : ToolDefinition := { name := "a", description := "d" }

def dC3b : ToolDefinition := { name := "b", description := "d", handler := 1 }

def stC3 : ClientState :=
  { status := ConnectionStatus.connected, registry := [("a", dC3a)],
    granted := [], handlers := [], coreConnected := true }

def dC3c : ToolDefinition := { name := "c", description := "d", handler := 2 }

def stC3two : ClientState :=
  { status := ConnectionStatus.connected,
    registry := [("a", dC3a), ("c", dC3c)],
    granted := [], handlers := [], coreConnected := true }

def dC4a : ToolDefinition := { name := "a", description := "d" }

def stC4 : ClientState :=
  { status := ConnectionStatus.connected, registry := [("a", dC4a)],
    granted := [], handlers := [], coreConnected := true }

def dC4b : ToolDefinition := { name := "b", description := "d", handler := 1 }

def stC4b : ClientState :=
  { status := ConnectionStatus.connected,
    registry := [("a", dC4a), ("b", dC4b)],
    granted := [], handlers := [], coreConnected := true }

def regStep (r : Registry) (d : ToolDefinition) : Registry :=
  match ToolRegistry.register r d with
  | Except.ok res => res.1
  | Except.error _ => r

def dC7a1 : ToolDefinition := { name := "a", description := "1" }

def dC7b : ToolDefinition := { name := "b", description := "d", handler := 1 }

def dC7a2 : ToolDefinition := { name := "a", description := "2", handler := 2 }

def regC7 : Registry := regStep (regStep (regStep [] dC7a1) dC7b) dC7a2

def regC7w : Registry := [("a", dC7a1)]

def stC9 : ClientState :=
  { status := ConnectionStatus.connecting, registry := [("a", dC4a)],
    granted := ["dom:read"], handlers := [("connect", [1])],
    coreConnected := false }

/-! ### Basic lemmas about the `Map` model -/

theorem mapSet_cons_ne (k' k : String) (w v : α) (rest : List (String × α))
    (hk : (k' == k) = false) :
    mapSet ((k', w) :: rest) k v = (k', w) :: mapSet rest k v := by
  unfold mapSet mapHas
  simp only [List.any_cons, hk, Bool.false_or]
  by_cases h : rest.any (fun p => p.1 == k) = true
  · rw [if_pos h, if_pos h, List.map_cons, if_neg (by simp [hk])]
  · rw [if_neg h, if_neg h, List.cons_append]

theorem mapSet_cons_eq (k' k : String) (w v : α) (rest : List (String × α))
    (hk : (k' == k) = true) :
    mapSet ((k', w) :: rest) k v =
      (k, v) :: rest.map (fun p => if p.1 == k then (k, v) else p) := by
  unfold mapSet mapHas
  simp only [List.any_cons, hk, Bool.true_or]
  rw [if_pos trivial, List.map_cons, if_pos hk]

theorem mapGet_mapSet_self (m : List (String × α)) (k : String) (v : α) :
    mapGet (mapSet m k v) k = some v := by
  induction m with
  | nil => simp [mapSet, mapHas, mapGet]
  | cons p rest ih =>
    obtain ⟨k', w⟩ := p
    by_cases hk : (k' == k) = true
    · rw [mapSet_cons_eq k' k w v rest hk]
      simp [mapGet]
    · rw [mapSet_cons_ne k' k w v rest (by simpa using hk)]
      unfold mapGet
      rw [List.find?_cons_of_neg _ (by simpa using hk)]
      exact ih

theorem mapSet_keys_of_has (m : List (String × α)) (k : String) (v : α)
    (h : mapHas m k = true) :
    (mapSet m k v).map Prod.fst = m.map Prod.fst := by
  unfold mapSet
  rw [if_pos h, List.map_map]
  apply List.map_congr_left
  intro p _
  by_cases hp : (p.1 == k) = true
  · have hpk : p.1 = k := beq_iff_eq.mp hp
    simp [Function.comp, hp, hpk]
  · simp [Function.comp, hp]

theorem mapSet_keys_of_not_has (m : List (String × α)) (k : String) (v : α)
    (h : mapHas m k = false) :
    (mapSet m k v).map Prod.fst = m.map Prod.fst ++ [k] := by
  unfold mapSet
  rw [if_neg (by simp [h])]
  simp

theorem mapHas_iff_mem_keys (m : List (String × α)) (k : String) :
    mapHas m k = true ↔ k ∈ m.map Prod.fst := by
  unfold mapHas
  rw [List.any_eq_true]
  constructor
  · rintro ⟨p, hp, hbeq⟩
    exact List.mem_map.mpr ⟨p, hp, beq_iff_eq.mp hbeq⟩
  · intro hmem
    obtain ⟨p, hp, rfl⟩ := List.mem_map.mp hmem
    exact ⟨p, hp, by simp⟩

theorem registryWF_mapSet (reg : Registry) (d : ToolDefinition)
    (hwf : RegistryWF reg) : RegistryWF (mapSet reg d.name d) := by
  obtain ⟨hnd, hco⟩ := hwf
  constructor
  · by_cases h : mapHas reg d.name = true
    · rw [mapSet_keys_of_has reg d.name d h]; exact hnd
    · rw [mapSet_keys_of_not_has reg d.name d (by simpa using h)]
      have hni : d.name ∉ reg.map Prod.fst := by
        intro hmem
        exact h ((mapHas_iff_mem_keys reg d.name).mpr hmem)
      simp [List.nodup_append, hnd, hni]
  · intro p hp
    unfold mapSet at hp
    by_cases h : mapHas reg d.name = true
    · rw [if_pos h] at hp
      obtain ⟨q, hq, hfq⟩ := List.mem_map.mp hp
      by_cases hqk : (q.1 == d.name) = true
      · rw [if_pos hqk] at hfq
        subst hfq; rfl
      · rw [if_neg hqk] at hfq
        subst hfq; exact hco q hq
    · rw [if_neg (by simp [h])] at hp
      rcases List.mem_append.mp hp with hl | hr
      · exact hco p hl
      · simp at hr; subst hr; rfl

/-- With distinct, coherent keys, filtering the value list by a name
yields exactly the entry `mapGet` finds (or nothing). -/
theorem list_filter_name (m : Registry) (k : String)
    (hnd : (m.map Prod.fst).Nodup) (hco : ∀ p ∈ m, p.1 = p.2.name) :
    (ToolRegistry.list m).filter (fun t => t.name == k) =
      (match mapGet m k with | some v => [v] | none => []) := by
  induction m with
  | nil => simp [ToolRegistry.list, mapGet]
  | cons p rest ih =>
    obtain ⟨k', w⟩ := p
    have hcohead : k' = w.name := hco (k', w) (by simp)
    have hndr : (rest.map Prod.fst).Nodup := (List.nodup_cons.mp (by simpa using hnd)).2
    have hknotin : k' ∉ rest.map Prod.fst := (List.nodup_cons.mp (by simpa using hnd)).1
    have hcor : ∀ p ∈ rest, p.1 = p.2.name := fun q hq => hco q (by simp [hq])
    by_cases hk : (k' == k) = true
    · have hk' : k' = k := beq_iff_eq.mp hk
      have hrest : (ToolRegistry.list rest).filter (fun t => t.name == k) = [] := by
        rw [List.filter_eq_nil_iff]
        intro t ht
        obtain ⟨q, hq, rfl⟩ := List.mem_map.mp ht
        have hq1 : q.1 = q.2.name := hcor q hq
        have hqin : q.1 ∈ rest.map Prod.fst := List.mem_map.mpr ⟨q, hq, rfl⟩
        have : q.2.name ≠ k := by
          rw [← hq1]
          intro hqk
          exact hknotin (by rw [hk', ← hqk] at hknotin ⊢; exact hqin)
        simp [this]
      have hw : (w.name == k) = true := by rw [← hcohead]; exact hk
      simp only [ToolRegistry.list, List.map_cons, List.filter_cons, hw, if_pos trivial]
      rw [show List.filter (fun t => t.name == k) (List.map Prod.snd rest) = [] from hrest]
      unfold mapGet
      rw [List.find?_cons_of_pos _ (by simpa using hk)]
      rfl
    · have hw : (w.name == k) = false := by
        rw [← hcohead]; simpa using hk
      simp only [ToolRegistry.list, List.map_cons, List.filter_cons, hw]
      unfold mapGet
      rw [List.find?_cons_of_neg _ (by simpa using hk)]
      simpa [ToolRegistry.list] using ih hndr hcor

/-! ## Claim theorems -/

/-- Claim C5: `CapabilityManager.check(required)` returns `allowed = true`
iff every element of `required` is granted; `missing` is exactly the
ungranted elements of `required` in their original order (a sublist of
`required`); the empty list always yields `{allowed: true, missing: []}`;
and after revoking a token, checking for it fails with exactly that token
missing. -/
theorem C5_check_characterization (granted required : List String) :
    ((CapabilityManager.check granted required).allowed = true ↔
       ∀ c ∈ required, granted.contains c = true) ∧
    (∀ c, c ∈ (CapabilityManager.check granted required).missing ↔
       c ∈ required ∧ granted.contains c = false) ∧
    ((CapabilityManager.check granted required).missing.Sublist required) ∧
    (CapabilityManager.check granted [] =
       { allowed := true, missing := [] }) ∧
    (∀ c, CapabilityManager.check (CapabilityManager.revoke granted c) [c] =
       { allowed := false, missing := [c] }) := by
  refine ⟨?_, ?_, List.filter_sublist required, rfl, ?_⟩
  · unfold CapabilityManager.check
    simp [List.isEmpty_iff, List.filter_eq_nil_iff]
  · intro c
    unfold CapabilityManager.check
    simp [List.mem_filter]
  · intro c
    have hmemno : c ∉ CapabilityManager.revoke granted c := by
      unfold CapabilityManager.revoke
      simp [List.mem_filter]
    have hnc : (CapabilityManager.revoke granted c).contains c = false := by
      simp [hmemno]
    unfold CapabilityManager.check
    simp [hmemno]

/-- Claim C1: when a definition (with the data model's non-empty `name`
and `description`) requires a non-empty capability list containing at
least one ungranted token, `registerTool` throws a capability error
carrying exactly the ungranted tokens of the requirement list in order,
and the client state — registry included, hence `listTools`/`hasTool` —
is left exactly as it was, with no handler registration and no sync
(fail closed). -/
theorem C1_capability_gate_fail_closed (st : ClientState) (d : ToolDefinition)
    (caps : List String) (remoteOk : Bool)
    (hn : d.name ≠ "") (hdesc : d.description ≠ "")
    (hcaps : d.capabilities = some caps)
    (hmiss : ∃ c, c ∈ caps ∧ st.granted.contains c = false) :
    VanillaClient.registerTool st d remoteOk =
      (st, [],
       some (ClientError.missingCapabilities d.name
         (caps.filter (fun c => !(st.granted.contains c))))) := by
  obtain ⟨c, hcmem, hcfalse⟩ := hmiss
  have hne : caps ≠ [] := by
    intro h
    subst h
    simp at hcmem
  have hlen : caps.length > 0 := List.length_pos.mpr hne
  have hmm : c ∈ caps.filter (fun c => !(st.granted.contains c)) :=
    List.mem_filter.mpr ⟨hcmem, by rw [hcfalse]; rfl⟩
  have hnotnil : caps.filter (fun c => !(st.granted.contains c)) ≠ [] :=
    List.ne_nil_of_mem hmm
  have hallowed : (CapabilityManager.check st.granted caps).allowed = false := by
    unfold CapabilityManager.check
    simpa [List.isEmpty_iff] using hnotnil
  unfold VanillaClient.registerTool
  rw [if_neg hn, if_neg hdesc, hcaps]
  simp only [if_pos hlen, if_pos hallowed]
  rfl

/-- Witness for C1: a client granted only `dom:read` rejects the
registration of a tool requiring `dom:write` with exactly
`missing = ["dom:write"]` and an unchanged state. -/
theorem C1_capability_gate_fail_closed_witness :
    VanillaClient.registerTool stC1 dC1 true =
      (stC1, [], some (ClientError.missingCapabilities "a" ["dom:write"])) := by
  have h := C1_capability_gate_fail_closed stC1 dC1 ["dom:write"] true
    (by decide) (by decide) rfl ⟨"dom:write", by decide, by decide⟩
  exact h.trans (by decide)

/-- Counterexample to C2 as stated: from the `reconnecting` state with a
non-empty registry, the core-client `connect` listener sets the status
to `connected` but triggers no sync at all — no `registerTools` call is
made, so tools registered while disconnected are not re-synced by this
transition. -/
theorem C2_core_connect_counterexample :
    (VanillaClient.onCoreConnect stC2).1.status = ConnectionStatus.connected ∧
    stC2.registry ≠ [] ∧
    (VanillaClient.onCoreConnect stC2).2.filter Step.isRegisterTools = [] := by
  refine ⟨rfl, by decide, rfl⟩

/-- Claim C2 (amended): when the core client reports a `connect` event —
in particular from the `reconnecting` state — the wrapper's status
becomes `connected` and the registry is preserved, but no sync is
re-triggered: the listener makes no `registerTools` call, so a full sync
happens only on an explicit `connect()` call. -/
theorem C2_core_connect_amended (st : ClientState) :
    (VanillaClient.onCoreConnect st).1.status = ConnectionStatus.connected ∧
    (VanillaClient.onCoreConnect st).1.registry = st.registry ∧
    (VanillaClient.onCoreConnect st).2.filter Step.isRegisterTools = [] := by
  exact ⟨rfl, rfl, rfl⟩

/-- Counterexample to C6 as stated: when `core.disconnect()` rejects,
the failure is rethrown out of `disconnect()` (the threw flag is true),
not swallowed — even though the local status still reaches
`disconnected`. -/
theorem C6_disconnect_counterexample :
    (VanillaClient.disconnect stC6 false).2.2 = true ∧
    (VanillaClient.disconnect stC6 false).1.status =
      ConnectionStatus.disconnected := by
  exact ⟨rfl, rfl⟩

/-- Claim C6 (amended): `disconnect()` from any state always leaves the
local status `disconnected` and emits `disconnect{reason:'manual',
code:1000}` regardless of the core outcome, but a core-level disconnect
failure propagates (is rethrown) to the caller of `disconnect()`; it is
swallowed only inside `destroy()`. -/
theorem C6_disconnect_amended (st : ClientState) (coreOk : Bool) :
    (VanillaClient.disconnect st coreOk).1.status =
      ConnectionStatus.disconnected ∧
    Step.emit (Ev.disconnect "manual" 1000) ∈
      (VanillaClient.disconnect st coreOk).2.1 ∧
    ((VanillaClient.disconnect st coreOk).2.2 = true ↔ coreOk = false) := by
  refine ⟨rfl, by simp [VanillaClient.disconnect], ?_⟩
  cases coreOk <;> simp [VanillaClient.disconnect]

/-- Claim C9: `destroy()` from any state (including mid-`connecting`)
and for either core-disconnect outcome returns normally (its type throws
nothing), and the final state has status `disconnected`, an empty
registry (so `listTools` is empty), an empty capability grant set, and
no local event subscriptions. -/
theorem C9_destroy_clears (st : ClientState) (coreOk : Bool) :
    (VanillaClient.destroy st coreOk).1.status =
      ConnectionStatus.disconnected ∧
    (VanillaClient.destroy st coreOk).1.registry = [] ∧
    (VanillaClient.destroy st coreOk).1.granted = [] ∧
    (VanillaClient.destroy st coreOk).1.handlers = [] ∧
    VanillaClient.listTools (VanillaClient.destroy st coreOk).1 = [] := by
  exact ⟨rfl, rfl, rfl, rfl, rfl⟩

/-- A sync never emits any event: its only step is the possible
`registerTools` call. -/
theorem syncTools_filter_emits (registry : Registry) (remoteOk : Bool)
    (p : Step → Bool)
    (hp : ∀ payload, p (Step.registerTools payload) = false) :
    (VanillaClient.syncTools registry remoteOk).1.filter p = [] := by
  simp only [VanillaClient.syncTools]
  split
  · simp [hp]
  · rfl

/-- During an emission, a handler that was in the set when the emission
began, was not yet invoked, and is not removed is invoked as soon as it
is reached; formally, removal bookkeeping never changes the invocation
count of a handler nobody removes. -/
theorem emitLoop_count_eq (removes : Nat → List Nat) (h : Nat)
    (hfree : ∀ g, h ∉ removes g) :
    ∀ (hs removed : List Nat), h ∉ removed →
      (VanillaClient.emitLoop removes hs removed).count h = hs.count h := by
  intro hs
  induction hs with
  | nil =>
      intro removed _
      rfl
  | cons hd rest ih =>
      intro removed hrm
      unfold VanillaClient.emitLoop
      by_cases hc : removed.contains hd = true
      · rw [if_pos hc]
        have hne : ¬(hd = h) := by
          intro he
          subst he
          exact hrm (by simpa using hc)
        rw [ih removed hrm, List.count_cons]
        simp [hne]
      · rw [if_neg hc]
        have hrm2 : h ∉ removed ++ removes hd := by
          intro hm
          rcases List.mem_append.mp hm with h1 | h2
          · exact hrm h1
          · exact hfree hd h2
        rw [List.count_cons, List.count_cons, ih (removed ++ removes hd) hrm2]

/-- Claim C8: for every emission over a duplicate-free handler set, any
handler subscribed when the emission began that no handler removes
during the emission is invoked exactly once — regardless of which other
handlers are removed from within handler invocations (`emit` iterates
the live set with `Set.prototype.forEach`, whose visit order makes it
behave as a snapshot for unaffected handlers). -/
theorem C8_emit_unaffected_once (hs : List Nat) (removes : Nat → List Nat)
    (h : Nat) (hnd : hs.Nodup) (hmem : h ∈ hs)
    (hfree : ∀ g, h ∉ removes g) :
    (VanillaClient.emitRun hs removes).count h = 1 := by
  unfold VanillaClient.emitRun
  rw [emitLoop_count_eq removes h hfree hs [] (List.not_mem_nil h)]
  exact List.count_eq_one_of_mem hnd hmem

/-- Witness for C8: handlers `[1, 2, 3]` where handler `1` removes
handler `2` mid-emission; the unaffected handler `3` still runs exactly
once. -/
theorem C8_emit_unaffected_once_witness :
    (VanillaClient.emitRun [1, 2, 3]
      (fun g => if g = 1 then [2] else [])).count 3 = 1 := by
  apply C8_emit_unaffected_once
  · decide
  · decide
  · intro g
    by_cases hg : g = 1
    · subst hg
      decide
    · simp [hg]

/-- A sync never emits a `connect` event. -/
theorem syncTools_no_connect_emit (registry : Registry) (remoteOk : Bool) :
    (VanillaClient.syncTools registry remoteOk).1.filter Step.isConnectEmit = [] :=
  syncTools_filter_emits registry remoteOk Step.isConnectEmit (fun _ => rfl)

/-- Claim C10: `connect()` first sets `connecting` and immediately emits
a `connect` event with an empty session id — before the core connection
is attempted and before any sync; on success, the `connect` events
observed are exactly that early one followed by one carrying the real
session id; on a failed attempt the early event is still the one
`connect` event subscribers observed. -/
theorem C10_connect_early_emit (st : ClientState) (coreOk remoteOk : Bool)
    (sid : Option String) :
    ((VanillaClient.connect st coreOk remoteOk sid).2.1.take 2 =
       [Step.setStatus ConnectionStatus.connecting, Step.emit (Ev.connect "")]) ∧
    ((VanillaClient.connect st coreOk remoteOk sid).2.2 = false →
       (VanillaClient.connect st coreOk remoteOk sid).2.1.filter
           Step.isConnectEmit =
         [Step.emit (Ev.connect ""), Step.emit (Ev.connect (sid.getD ""))]) ∧
    ((VanillaClient.connect st coreOk remoteOk sid).2.2 = true →
       (VanillaClient.connect st coreOk remoteOk sid).2.1.filter
           Step.isConnectEmit = [Step.emit (Ev.connect "")]) := by
  have hsync := syncTools_no_connect_emit st.registry remoteOk
  cases coreOk with
  | false =>
      refine ⟨rfl, ?_, fun _ => rfl⟩
      intro hcontra
      rw [show (VanillaClient.connect st false remoteOk sid).2.2 = true from rfl]
        at hcontra
      cases hcontra
  | true =>
      by_cases hs2 : (VanillaClient.syncTools st.registry remoteOk).2 = false
      · have heq : VanillaClient.connect st true remoteOk sid =
            ({ st with status := ConnectionStatus.disconnected,
                       coreConnected := true },
             [Step.setStatus ConnectionStatus.connecting,
              Step.emit (Ev.connect ""), Step.coreConnect] ++
               (VanillaClient.syncTools st.registry remoteOk).1 ++
               [Step.setStatus ConnectionStatus.disconnected,
                Step.emit (Ev.error "connect")],
             true) := by
          simp only [VanillaClient.connect]
          rw [if_neg (by decide), if_pos hs2]
        refine ⟨?_, ?_, fun _ => ?_⟩
        · rw [heq]
          rfl
        · intro hcontra
          rw [heq] at hcontra
          cases hcontra
        · rw [heq]
          simp only [List.filter_append, hsync]
          rfl
      · have heq : VanillaClient.connect st true remoteOk sid =
            ({ st with status := ConnectionStatus.connected,
                       coreConnected := true },
             [Step.setStatus ConnectionStatus.connecting,
              Step.emit (Ev.connect ""), Step.coreConnect] ++
               (VanillaClient.syncTools st.registry remoteOk).1 ++
               [Step.setStatus ConnectionStatus.connected,
                Step.emit (Ev.connect (sid.getD ""))],
             false) := by
          simp only [VanillaClient.connect]
          rw [if_neg (by decide), if_neg hs2]
        refine ⟨?_, fun _ => ?_, ?_⟩
        · rw [heq]
          rfl
        · rw [heq]
          simp only [List.filter_append, hsync]
          rfl
        · intro hcontra
          rw [heq] at hcontra
          cases hcontra

/-- Witness for C10: a successful empty-registry connection emits
exactly the early empty-session `connect` event followed by the real
one. -/
theorem C10_connect_early_emit_witness :
    (VanillaClient.connect stC10 true true (some "s1")).2.1.filter
        Step.isConnectEmit =
      [Step.emit (Ev.connect ""), Step.emit (Ev.connect "s1")] :=
  (C10_connect_early_emit stC10 true true (some "s1")).2.1 rfl

/-! ### Reduction equations for `registerTool` / `unregisterTool` -/

theorem mapSet_length_pos (m : List (String × α)) (k : String) (v : α) :
    0 < (mapSet m k v).length := by
  unfold mapSet
  split
  · rename_i h
    rw [List.length_map]
    cases m with
    | nil => simp [mapHas] at h
    | cons p rest => simp
  · simp

theorem toProtocolFormat_length (m : Registry) :
    (ToolRegistry.toProtocolFormat m).length = m.length := by
  unfold ToolRegistry.toProtocolFormat ToolRegistry.list
  simp

/-- With valid fields and a passing capability check, `registerTool`
reaches the admission path. -/
theorem registerTool_reaches_store (st : ClientState) (d : ToolDefinition)
    (remoteOk : Bool) (hn : d.name ≠ "") (hdesc : d.description ≠ "")
    (hallow : ∀ caps, d.capabilities = some caps →
       (CapabilityManager.check st.granted caps).allowed = true) :
    VanillaClient.registerTool st d remoteOk =
      VanillaClient.registerToolStore st d remoteOk := by
  unfold VanillaClient.registerTool
  rw [if_neg hn, if_neg hdesc]
  cases hcap : d.capabilities with
  | none => rfl
  | some caps =>
      dsimp only
      by_cases hl : caps.length > 0
      · rw [if_pos hl, if_neg (by simp [hallow caps hcap])]
      · rw [if_neg hl]

/-- The admission path, with the validation already known to pass. -/
theorem registerToolStore_eq (st : ClientState) (d : ToolDefinition)
    (remoteOk : Bool) (hn : d.name ≠ "") (hdesc : d.description ≠ "") :
    VanillaClient.registerToolStore st d remoteOk =
      (let st2 : ClientState := { st with registry := mapSet st.registry d.name d }
       if st2.status == ConnectionStatus.connected && st2.coreConnected then
         (st2,
          Step.registerHandler d.name ::
            ((VanillaClient.syncTools st2.registry remoteOk).1 ++
             (if (VanillaClient.syncTools st2.registry remoteOk).2 = false then
               [Step.consoleError "[BTCP] Failed to sync tools after registration:"]
              else [])),
          none)
       else (st2, [Step.registerHandler d.name], none)) := by
  unfold VanillaClient.registerToolStore ToolRegistry.register
  rw [if_neg hn, if_neg hdesc]

/-- Connected client, failing remote call: the registration stores the
tool, fires the sync, and reports the rejection on the console. -/
theorem registerTool_connected_syncfail (st : ClientState) (d : ToolDefinition)
    (hn : d.name ≠ "") (hdesc : d.description ≠ "")
    (hallow : ∀ caps, d.capabilities = some caps →
       (CapabilityManager.check st.granted caps).allowed = true)
    (hcon : (st.status == ConnectionStatus.connected && st.coreConnected) = true) :
    VanillaClient.registerTool st d false =
      ({ st with registry := mapSet st.registry d.name d },
       [Step.registerHandler d.name,
        Step.registerTools
          (ToolRegistry.toProtocolFormat (mapSet st.registry d.name d)),
        Step.consoleError "[BTCP] Failed to sync tools after registration:"],
       none) := by
  rw [registerTool_reaches_store st d false hn hdesc hallow,
      registerToolStore_eq st d false hn hdesc]
  dsimp only
  have hlen : 0 < (ToolRegistry.toProtocolFormat
      (mapSet st.registry d.name d)).length := by
    rw [toProtocolFormat_length]
    exact mapSet_length_pos st.registry d.name d
  have hsync : VanillaClient.syncTools (mapSet st.registry d.name d) false =
      ([Step.registerTools
          (ToolRegistry.toProtocolFormat (mapSet st.registry d.name d))],
       false) := by
    simp only [VanillaClient.syncTools]
    rw [if_pos hlen]
  rw [if_pos hcon, hsync]
  rfl

/-- Not-connected client: the registration stores the tool and defers
any sync. -/
theorem registerTool_not_connected (st : ClientState) (d : ToolDefinition)
    (remoteOk : Bool) (hn : d.name ≠ "") (hdesc : d.description ≠ "")
    (hallow : ∀ caps, d.capabilities = some caps →
       (CapabilityManager.check st.granted caps).allowed = true)
    (hcon : (st.status == ConnectionStatus.connected && st.coreConnected) = false) :
    VanillaClient.registerTool st d remoteOk =
      ({ st with registry := mapSet st.registry d.name d },
       [Step.registerHandler d.name], none) := by
  rw [registerTool_reaches_store st d remoteOk hn hdesc hallow,
      registerToolStore_eq st d remoteOk hn hdesc]
  dsimp only
  rw [if_neg (by simp [hcon])]

/-- The `unregisterTool` unfolded to its two branches. -/
theorem unregisterTool_eq (st : ClientState) (name : String) (remoteOk : Bool) :
    VanillaClient.unregisterTool st name remoteOk =
      (let st2 : ClientState := { st with registry := mapDelete st.registry name }
       if mapHas st.registry name &&
           (st2.status == ConnectionStatus.connected && st2.coreConnected) then
         (st2,
          (VanillaClient.syncTools st2.registry remoteOk).1 ++
            (if (VanillaClient.syncTools st2.registry remoteOk).2 = false then
              [Step.consoleError
                "[BTCP] Failed to sync tools after unregistration:"]
             else []),
          mapHas st.registry name)
       else (st2, [], mapHas st.registry name)) := by
  unfold VanillaClient.unregisterTool ToolRegistry.unregister
  rfl

/-- Counterexample to C3 as stated: a valid registration while connected
whose background sync fails produces no `error` event at all — the
failure is visible only as a `console.error` step, so it is not
"reported via an emitted `error` event" as the claim requires. -/
theorem C3_sync_failure_counterexample :
    (VanillaClient.registerTool stC3 dC3b false).2.1.filter
      Step.isErrorEmit = [] ∧
    Step.consoleError "[BTCP] Failed to sync tools after registration:" ∈
      (VanillaClient.registerTool stC3 dC3b false).2.1 := by
  decide

/-- Claim C3 (amended): a failing background sync triggered by
`registerTool` or `unregisterTool` is never thrown back into the
triggering call, but it is not reported via an `error` event either:
neither call ever emits an `error` event, and when the failing sync
actually ran (client connected) the failure is reported through
`console.error` only. -/
theorem C3_sync_failure_amended (st : ClientState) (d : ToolDefinition)
    (hn : d.name ≠ "") (hdesc : d.description ≠ "")
    (hallow : ∀ caps, d.capabilities = some caps →
       (CapabilityManager.check st.granted caps).allowed = true) :
    ((VanillaClient.registerTool st d false).2.2 = none ∧
     (VanillaClient.registerTool st d false).2.1.filter Step.isErrorEmit = [] ∧
     ((st.status == ConnectionStatus.connected && st.coreConnected) = true →
        Step.consoleError "[BTCP] Failed to sync tools after registration:" ∈
          (VanillaClient.registerTool st d false).2.1)) ∧
    (∀ name,
      (VanillaClient.unregisterTool st name false).2.1.filter
        Step.isErrorEmit = [] ∧
      ((ToolRegistry.unregister st.registry name).2 = true →
       (st.status == ConnectionStatus.connected && st.coreConnected) = true →
       0 < (ToolRegistry.toProtocolFormat (mapDelete st.registry name)).length →
         Step.consoleError "[BTCP] Failed to sync tools after unregistration:" ∈
           (VanillaClient.unregisterTool st name false).2.1)) := by
  constructor
  · by_cases hcon : (st.status == ConnectionStatus.connected &&
        st.coreConnected) = true
    · rw [registerTool_connected_syncfail st d hn hdesc hallow hcon]
      exact ⟨rfl, rfl, fun _ => by simp⟩
    · rw [registerTool_not_connected st d false hn hdesc hallow
        (by simpa using hcon)]
      exact ⟨rfl, rfl, fun hc => absurd hc hcon⟩
  · intro name
    constructor
    · rw [unregisterTool_eq st name false]
      dsimp only
      by_cases hcond : (mapHas st.registry name &&
          (st.status == ConnectionStatus.connected && st.coreConnected)) = true
      · rw [if_pos hcond]
        dsimp only
        rw [List.filter_append,
            syncTools_filter_emits (mapDelete st.registry name) false
              Step.isErrorEmit (fun _ => rfl)]
        split
        · rfl
        · rfl
      · rw [if_neg hcond]
        rfl
    · intro hrem hcon hlen
      have hhas : mapHas st.registry name = true := hrem
      have hcond : (mapHas st.registry name &&
          (st.status == ConnectionStatus.connected && st.coreConnected)) = true := by
        rw [Bool.and_eq_true]
        exact ⟨hhas, hcon⟩
      rw [unregisterTool_eq st name false]
      dsimp only
      rw [if_pos hcond]
      dsimp only
      have hsync : VanillaClient.syncTools (mapDelete st.registry name) false =
          ([Step.registerTools
              (ToolRegistry.toProtocolFormat (mapDelete st.registry name))],
           false) := by
        simp only [VanillaClient.syncTools]
        rw [if_pos hlen]
      rw [hsync]
      simp

/-- Witness for C3 (amended): on a connected two-tool client with a
failing remote, both a registration and an unregistration report their
failing background sync through the console. -/
theorem C3_sync_failure_amended_witness :
    (Step.consoleError "[BTCP] Failed to sync tools after registration:" ∈
      (VanillaClient.registerTool stC3two dC3b false).2.1) ∧
    (Step.consoleError "[BTCP] Failed to sync tools after unregistration:" ∈
      (VanillaClient.unregisterTool stC3two "a" false).2.1) :=
  ⟨(C3_sync_failure_amended stC3two dC3b (by decide) (by decide)
      (fun caps h => by simp [dC3b] at h)).1.2.2 (by decide),
   ((C3_sync_failure_amended stC3two dC3b (by decide) (by decide)
      (fun caps h => by simp [dC3b] at h)).2 "a").2 (by decide) (by decide)
     (by decide)⟩

/-- Counterexample to C4 as stated: unregistering the only tool while
connected removes it (result `true`, registry now empty), yet the
scheduled sync transmits nothing — `registerTools` is never called with
the empty list; the whole trace is empty. -/
theorem C4_empty_view_counterexample :
    (VanillaClient.unregisterTool stC4 "a" true).2.2 = true ∧
    (VanillaClient.unregisterTool stC4 "a" true).1.registry = [] ∧
    (VanillaClient.unregisterTool stC4 "a" true).2.1 = [] := by
  decide

/-- Claim C4 (amended): every sync call that transmits does so with the
registry's current full protocol view, never a delta; after
`unregisterTool(name)` removes a definition while connected, a sync is
scheduled with the updated full view when that view is non-empty, but an
empty view is never transmitted — `registerTools` is not called with the
empty list. -/
theorem C4_full_view_sync_amended (st : ClientState) (name : String)
    (remoteOk : Bool) :
    (∀ (reg : Registry) (ok : Bool) (payload : List ProtocolToolDefinition),
       Step.registerTools payload ∈ (VanillaClient.syncTools reg ok).1 →
         payload = ToolRegistry.toProtocolFormat reg) ∧
    (∀ payload, Step.registerTools payload ∈
         (VanillaClient.unregisterTool st name remoteOk).2.1 →
       payload = ToolRegistry.toProtocolFormat
         (VanillaClient.unregisterTool st name remoteOk).1.registry) ∧
    ((ToolRegistry.unregister st.registry name).2 = true →
     (st.status == ConnectionStatus.connected && st.coreConnected) = true →
     0 < (ToolRegistry.toProtocolFormat (mapDelete st.registry name)).length →
       Step.registerTools
           (ToolRegistry.toProtocolFormat (mapDelete st.registry name)) ∈
         (VanillaClient.unregisterTool st name remoteOk).2.1) ∧
    (ToolRegistry.toProtocolFormat (mapDelete st.registry name) = [] →
       (VanillaClient.unregisterTool st name remoteOk).2.1.filter
           Step.isRegisterTools = []) := by
  have hfull : ∀ (reg : Registry) (ok : Bool)
      (payload : List ProtocolToolDefinition),
      Step.registerTools payload ∈ (VanillaClient.syncTools reg ok).1 →
        payload = ToolRegistry.toProtocolFormat reg := by
    intro reg ok payload hmem
    simp only [VanillaClient.syncTools] at hmem
    split at hmem
    · simpa using hmem
    · simp at hmem
  refine ⟨hfull, ?_, ?_, ?_⟩
  · intro payload hmem
    rw [unregisterTool_eq st name remoteOk] at hmem ⊢
    dsimp only at hmem ⊢
    by_cases hcond : (mapHas st.registry name &&
        (st.status == ConnectionStatus.connected && st.coreConnected)) = true
    · rw [if_pos hcond] at hmem ⊢
      dsimp only at hmem ⊢
      rcases List.mem_append.mp hmem with h1 | h2
      · exact hfull _ _ _ h1
      · exfalso
        revert h2
        split
        · intro h2
          simp at h2
        · intro h2
          simp at h2
    · rw [if_neg hcond] at hmem
      simp at hmem
  · intro hrem hcon hlen
    have hhas : mapHas st.registry name = true := hrem
    have hcond : (mapHas st.registry name &&
        (st.status == ConnectionStatus.connected && st.coreConnected)) = true := by
      rw [Bool.and_eq_true]
      exact ⟨hhas, hcon⟩
    rw [unregisterTool_eq st name remoteOk]
    dsimp only
    rw [if_pos hcond]
    dsimp only
    have hsync : VanillaClient.syncTools (mapDelete st.registry name) remoteOk =
        ([Step.registerTools
            (ToolRegistry.toProtocolFormat (mapDelete st.registry name))],
         remoteOk) := by
      simp only [VanillaClient.syncTools]
      rw [if_pos hlen]
    rw [hsync]
    simp
  · intro hempty
    rw [unregisterTool_eq st name remoteOk]
    dsimp only
    by_cases hcond : (mapHas st.registry name &&
        (st.status == ConnectionStatus.connected && st.coreConnected)) = true
    · rw [if_pos hcond]
      dsimp only
      have hsync0 : VanillaClient.syncTools (mapDelete st.registry name)
          remoteOk = ([], true) := by
        simp only [VanillaClient.syncTools]
        rw [if_neg (by simp [hempty])]
      rw [hsync0]
      dsimp only
      rw [if_neg (by simp)]
      rfl
    · rw [if_neg hcond]
      rfl

/-- Witness for C4 (amended): removing one of two tools while connected
transmits the full updated one-tool view. -/
theorem C4_full_view_sync_amended_witness :
    Step.registerTools
        (ToolRegistry.toProtocolFormat (mapDelete stC4b.registry "a")) ∈
      (VanillaClient.unregisterTool stC4b "a" true).2.1 :=
  (C4_full_view_sync_amended stC4b "a" true).2.2.1 (by decide) (by decide)
    (by decide)

/-- Counterexample to C7 as stated: after registering `a`, then `b`,
then re-registering `a` with a new definition, the listing order is
`["a", "b"]` — the re-registered tool keeps its original position
(JavaScript `Map.set` keeps the key's first-insertion position), not the
claimed position of its most recent registration `["b", "a"]`; the
stored definition is the newest one. -/
theorem C7_register_order_counterexample :
    (ToolRegistry.list regC7).map ToolDefinition.name = ["a", "b"] ∧
    (ToolRegistry.list regC7).map ToolDefinition.name ≠ ["b", "a"] ∧
    mapGet regC7 "a" = some dC7a2 := by
  decide

/-- Claim C7 (amended): `listTools()` returns the tools in
first-registration order — re-registering an existing name keeps the
tool at its original position while storing the newest definition, and a
fresh name is appended at the end; registering over an existing name
succeeds with a warning-level side effect (not an error), after which
exactly one listed entry bears that name and equals the newest
definition. -/
theorem C7_register_overwrite_amended (reg : Registry) (d : ToolDefinition)
    (hn : d.name ≠ "") (hdesc : d.description ≠ "") (hwf : RegistryWF reg) :
    ToolRegistry.register reg d =
      Except.ok (mapSet reg d.name d, mapHas reg d.name) ∧
    (ToolRegistry.list (mapSet reg d.name d)).filter
        (fun t => t.name == d.name) = [d] ∧
    (mapSet reg d.name d).map Prod.fst =
      (if mapHas reg d.name then reg.map Prod.fst
       else reg.map Prod.fst ++ [d.name]) := by
  refine ⟨?_, ?_, ?_⟩
  · unfold ToolRegistry.register
    rw [if_neg hn, if_neg hdesc]
  · have hwf2 : RegistryWF (mapSet reg d.name d) := registryWF_mapSet reg d hwf
    rw [list_filter_name (mapSet reg d.name d) d.name hwf2.1 hwf2.2,
        mapGet_mapSet_self]
  · by_cases h : mapHas reg d.name = true
    · rw [if_pos h, mapSet_keys_of_has reg d.name d h]
    · rw [if_neg h, mapSet_keys_of_not_has reg d.name d (by simpa using h)]

/-- Witness for C7 (amended): overwriting the only entry keeps exactly
one listed tool under that name, equal to the newest definition. -/
theorem C7_register_overwrite_amended_witness :
    (ToolRegistry.list (mapSet regC7w dC7a2.name dC7a2)).filter
        (fun t => t.name == dC7a2.name) = [dC7a2] :=
  (C7_register_overwrite_amended regC7w dC7a2 (by decide) (by decide)
    ⟨by decide, by decide⟩).2.1

/-- Witness for C2 (amended): the concrete reconnecting state of the
counterexample indeed keeps its registry across the core `connect`
event. -/
theorem C2_core_connect_amended_witness :
    (VanillaClient.onCoreConnect stC2).1.registry = stC2.registry :=
  (C2_core_connect_amended stC2).2.1

/-- Witness for C5: checking the empty requirement list against a
one-token grant set yields `allowed` with nothing missing. -/
theorem C5_check_characterization_witness :
    CapabilityManager.check ["dom:read"] [] =
      { allowed := true, missing := [] } :=
  (C5_check_characterization ["dom:read"] []).2.2.2.1

/-- Witness for C6 (amended): a successful manual disconnect from the
connected state leaves the status `disconnected`. -/
theorem C6_disconnect_amended_witness :
    (VanillaClient.disconnect stC6 true).1.status =
      ConnectionStatus.disconnected :=
  (C6_disconnect_amended stC6 true).1

/-- Witness for C9: destroying a mid-`connecting` client whose core
disconnect fails still clears everything and reaches `disconnected`. -/
theorem C9_destroy_clears_witness :
    (VanillaClient.destroy stC9 false).1.status =
      ConnectionStatus.disconnected ∧
    (VanillaClient.destroy stC9 false).1.registry = [] :=
  ⟨(C9_destroy_clears stC9 false).1, (C9_destroy_clears stC9 false).2.1⟩

end BTCP
